import Mathlib

/-!
Verification of the adbutils protocol/transport layer.

Shallow embedding conventions:
  - wire data (socket bytes, protocol strings) is modelled as `List Nat`,
    each element one byte; protocol-level "strings" are their UTF-8 bytes
    (all protocol constants are ASCII);
  - a socket is a pair of byte streams: `input` (bytes still to be read)
    and `sent` (bytes written so far);
  - Python exceptions become an explicit error type `PyErr`; fallible
    operations return `Except PyErr`.
-/

namespace Adbutils

/-- Converts an ASCII string literal to its byte list. -/
def strBytes (s : String) : List Nat := s.data.map Char.toNat

/-- The 4-byte `OKAY` status word (`_OKAY` in `_adb.py`). -/
def OKAY : List Nat := strBytes "OKAY"

/-- The 4-byte `FAIL` status word (`_FAIL` in `_adb.py`). -/
def FAIL : List Nat := strBytes "FAIL"

/-- Python exceptions raised by the code under `src/adbutils`. -/
inductive PyErr where
  /-- AdbError carrying a protocol message read off the wire. -/
  | adbBytes (msg : List Nat)
  /-- AdbError with a fixed literal message. -/
  | adbMsg (msg : String)
  /-- AdbError from `check_okay` on an unrecognized status word. -/
  | adbUnknownData (data : List Nat)
  /-- AdbError from `_shell_v1` when the sentinel is missing. -/
  | adbShellOutputInvalid
  /-- AdbSyncError raised by `Sync.push`. -/
  | adbSyncMsg (msg : String)
  /-- EOFError from `read_exact` when fewer bytes than requested arrive. -/
  | eofShort (expected got : Nat)
  /-- ValueError from `int(...)` on a non-numeric string. -/
  | valueError
  /-- TypeError from calling a constructor with the wrong arity. -/
  | typeError
  /-- UnboundLocalError from reading a never-assigned local variable. -/
  | unboundLocal
deriving DecidableEq, Repr

/-- True for the exception classes deriving from `AdbError` in `errors.py`. -/
def PyErr.isAdbError : PyErr → Bool
  | .adbBytes _ => true
  | .adbMsg _ => true
  | .adbUnknownData _ => true
  | .adbShellOutputInvalid => true
  | .adbSyncMsg _ => true
  | _ => false

abbrev PyResult (α : Type) := Except PyErr α

instance {ε α : Type} [DecidableEq ε] [DecidableEq α] : DecidableEq (Except ε α) :=
  fun x y =>
    match x, y with
    | .ok a, .ok b =>
      if h : a = b then .isTrue (by rw [h]) else .isFalse (by simp [h])
    | .error a, .error b =>
      if h : a = b then .isTrue (by rw [h]) else .isFalse (by simp [h])
    | .ok _, .error _ => .isFalse (by simp)
    | .error _, .ok _ => .isFalse (by simp)

/-- A connected TCP socket: pending input bytes and bytes sent so far. -/
structure ConnSock where
  input : List Nat
  sent : List Nat
deriving DecidableEq, Repr

/-- `AdbConnection` from `_adb.py`: `conn = none` models `self.__conn is None`. -/
structure AdbConnection where
  conn : Option ConnSock
deriving DecidableEq, Repr

/-- Property `AdbConnection.closed`: `self.__conn is None`. -/
def AdbConnection.closed (c : AdbConnection) : Bool := c.conn.isNone

/-- Method `AdbConnection.close`: a no-op when already closed, otherwise
drops the socket (the shutdown and close calls are socket effects with no
further observable state). -/
def AdbConnection.close (c : AdbConnection) : AdbConnection :=
  match c.conn with
  | none => c
  | some _ => ⟨none⟩

/-- Property `AdbConnection.conn`: raises `AdbError("Connection is closed")`
when the socket was closed, otherwise yields it. -/
def AdbConnection.connGet (c : AdbConnection) : PyResult ConnSock :=
  match c.conn with
  | none => .error (.adbMsg "Connection is closed")
  | some s => .ok s

/-- Methods `AdbConnection.read` / `_read_fully`: loop `conn.recv` until `n`
bytes are collected or the stream ends, returning up to `n` bytes.  For
`n = 0` the loop body never runs, so the socket is never touched. -/
def AdbConnection.read (c : AdbConnection) (n : Nat) : PyResult (List Nat × AdbConnection) :=
  if n = 0 then .ok ([], c)
  else
    match c.connGet with
    | .error e => .error e
    | .ok s => .ok (s.input.take n, ⟨some ⟨s.input.drop n, s.sent⟩⟩)

/-- Method `AdbConnection.read_exact`: `_read_fully` then `EOFError` if the
stream ended short. -/
def AdbConnection.read_exact (c : AdbConnection) (n : Nat) : PyResult (List Nat × AdbConnection) :=
  match c.read n with
  | .error e => .error e
  | .ok (data, c1) =>
    if data.length < n then .error (.eofShort n data.length)
    else .ok (data, c1)

/-- Method `AdbConnection.send`: `self.conn.send(data)`, returning the number
of bytes written. -/
def AdbConnection.send (c : AdbConnection) (data : List Nat) : PyResult (Nat × AdbConnection) :=
  match c.connGet with
  | .error e => .error e
  | .ok s => .ok (data.length, ⟨some ⟨s.input, s.sent ++ data⟩⟩)

/-- Lowercase hex digit character code for a value below 16
(`"{:04x}".format` digit alphabet). -/
def hexDigitChar (d : Nat) : Nat := if d < 10 then 48 + d else 87 + d

/-- Hex digit values of `n`, least significant first; empty for 0. -/
def hexDigitsRev : Nat → List Nat
  | 0 => []
  | n + 1 => ((n + 1) % 16) :: hexDigitsRev ((n + 1) / 16)
decreasing_by exact Nat.div_lt_self (Nat.succ_pos n) (by omega)

/-- Hex digit values of `n`, most significant first, at least one digit. -/
def hexDigits (n : Nat) : List Nat :=
  if n = 0 then [0] else (hexDigitsRev n).reverse

/-- Python `"{:04x}".format n` as bytes: lowercase hex digits of `n`,
zero-padded on the left to a minimum width of 4 (wider when `n ≥ 16^4`). -/
def hex04 (n : Nat) : List Nat :=
  let ds := (hexDigits n).map hexDigitChar
  List.replicate (4 - ds.length) 48 ++ ds

/-- Value of one hex digit character, as accepted by Python `int(s, 16)`. -/
def hexVal (c : Nat) : Option Nat :=
  if 48 ≤ c ∧ c ≤ 57 then some (c - 48)
  else if 97 ≤ c ∧ c ≤ 102 then some (c - 87)
  else if 65 ≤ c ∧ c ≤ 70 then some (c - 55)
  else none

/-- One step of the hex accumulator fold. -/
def hexStep (acc : Option Nat) (c : Nat) : Option Nat :=
  acc.bind fun a => (hexVal c).map fun d => a * 16 + d

/-- Python `int(s, 16)` restricted to plain hex digit strings: `none` on an
empty string or any non-hex-digit byte. -/
def parseHex (bs : List Nat) : Option Nat :=
  if bs.isEmpty then none else bs.foldl hexStep (some 0)

/-- The bytes written by `AdbConnection.send_command` for a command whose
UTF-8 encoding is `cmdBytes`: 4(+)-hex-digit length, then the bytes. -/
def sendCommandFrame (cmdBytes : List Nat) : List Nat :=
  hex04 cmdBytes.length ++ cmdBytes

/-- Method `AdbConnection.send_command`: one `conn.send` of the framed
command; commands are modelled by their UTF-8 bytes. -/
def AdbConnection.send_command (c : AdbConnection) (cmdBytes : List Nat) : PyResult AdbConnection :=
  match c.connGet with
  | .error e => .error e
  | .ok s => .ok ⟨some ⟨s.input, s.sent ++ sendCommandFrame cmdBytes⟩⟩

/-- Method `AdbConnection.read_string_block`: 4 hex chars of length, then
that many bytes; `AdbError("connection closed")` when the stream is already
finished, `ValueError` (from `int`) when the length is not hex. -/
def AdbConnection.read_string_block (c : AdbConnection) : PyResult (List Nat × AdbConnection) :=
  match c.read 4 with
  | .error e => .error e
  | .ok (lenBytes, c1) =>
    if lenBytes.isEmpty then .error (.adbMsg "connection closed")
    else
      match parseHex lenBytes with
      | none => .error .valueError
      | some size => c1.read size

/-- Method `AdbConnection.check_okay`: 4 status bytes; `FAIL` raises an
AdbError carrying the following string block, `OKAY` returns the connection,
anything else raises `AdbError("Unknown data: ...")`. -/
def AdbConnection.check_okay (c : AdbConnection) : PyResult AdbConnection :=
  match c.read 4 with
  | .error e => .error e
  | .ok (data, c1) =>
    if data = FAIL then
      match c1.read_string_block with
      | .ok (msg, _) => .error (.adbBytes msg)
      | .error e => .error e
    else if data = OKAY then .ok c1
    else .error (.adbUnknownData data)

/-! Arithmetic facts about the hex length prefix. -/

theorem hexVal_hexDigitChar {d : Nat} (h : d < 16) : hexVal (hexDigitChar d) = some d := by
  interval_cases d <;> decide

theorem hexDigitsRev_foldl (n : Nat) :
    ∀ a : Nat, ((hexDigitsRev n).reverse.map hexDigitChar).foldl hexStep (some a)
      = some (a * 16 ^ (hexDigitsRev n).length + n) := by
  induction n using Nat.strong_induction_on with
  | _ n ih =>
    intro a
    match n with
    | 0 => simp [hexDigitsRev]
    | m + 1 =>
      rw [hexDigitsRev]
      have hdiv : (m + 1) / 16 < m + 1 := Nat.div_lt_self (Nat.succ_pos m) (by omega)
      have hmod : (m + 1) % 16 < 16 := Nat.mod_lt _ (by omega)
      simp only [List.reverse_cons, List.map_append, List.foldl_append, ih _ hdiv a,
        List.map_cons, List.map_nil, List.foldl_cons, List.foldl_nil, hexStep,
        hexVal_hexDigitChar hmod, List.length_cons]
      simp only [Option.some_bind, Option.map_some']
      congr 1
      generalize (hexDigitsRev ((m + 1) / 16)).length = L
      calc (a * 16 ^ L + (m + 1) / 16) * 16 + (m + 1) % 16
          = a * 16 ^ L * 16 + (16 * ((m + 1) / 16) + (m + 1) % 16) := by ring
        _ = a * 16 ^ (L + 1) + (m + 1) := by rw [Nat.div_add_mod]; ring

theorem foldl_hexStep_zeros (k : Nat) (bs : List Nat) :
    (List.replicate k 48 ++ bs).foldl hexStep (some 0) = bs.foldl hexStep (some 0) := by
  induction k with
  | zero => simp
  | succ k ih =>
    have h48 : hexStep (some 0) 48 = some 0 := by decide
    simpa [List.replicate_succ, h48] using ih

theorem parseHex_hex04 (n : Nat) : parseHex (hex04 n) = some n := by
  by_cases h0 : n = 0
  · subst h0; decide
  · have hds : hexDigits n = (hexDigitsRev n).reverse := by simp [hexDigits, h0]
    have hne : (hexDigitsRev n) ≠ [] := by
      cases hn : n with
      | zero => exact absurd hn h0
      | succ m => rw [hexDigitsRev]; simp
    have hlen : ((hexDigits n).map hexDigitChar) ≠ [] := by
      simpa [hds] using hne
    rw [parseHex, hex04]
    have hempty : (List.replicate (4 - ((hexDigits n).map hexDigitChar).length) 48
        ++ (hexDigits n).map hexDigitChar).isEmpty = false := by
      rw [List.isEmpty_eq_false_iff_exists_mem]
      rcases List.exists_mem_of_ne_nil _ hlen with ⟨x, hx⟩
      exact ⟨x, List.mem_append_right _ hx⟩
    simp only [hempty, if_false, Bool.false_eq_true]
    rw [foldl_hexStep_zeros, hds, hexDigitsRev_foldl n 0]
    simp

theorem hexDigitsRev_length_le {k n : Nat} (h : n < 16 ^ k) :
    (hexDigitsRev n).length ≤ k := by
  induction k generalizing n with
  | zero =>
    interval_cases n
    simp [hexDigitsRev]
  | succ k ih =>
    match n with
    | 0 => simp [hexDigitsRev]
    | m + 1 =>
      rw [hexDigitsRev]
      have : (m + 1) / 16 < 16 ^ k := by
        rw [Nat.div_lt_iff_lt_mul (by omega)]
        calc m + 1 < 16 ^ (k + 1) := h
        _ = 16 ^ k * 16 := by ring
      simpa using ih this

theorem hexDigitsRev_length_gt {k n : Nat} (h : 16 ^ k ≤ n) :
    k < (hexDigitsRev n).length := by
  induction k generalizing n with
  | zero =>
    match n with
    | 0 => simp at h
    | m + 1 => rw [hexDigitsRev]; simp
  | succ k ih =>
    match n with
    | 0 => exact absurd h (by have := pow_pos (show (0:ℕ) < 16 by omega) (k + 1); omega)
    | m + 1 =>
      rw [hexDigitsRev]
      have : 16 ^ k ≤ (m + 1) / 16 := by
        rw [Nat.le_div_iff_mul_le (by omega)]
        calc 16 ^ k * 16 = 16 ^ (k + 1) := by ring
        _ ≤ m + 1 := h
      simpa using ih this

theorem hex04_length_of_le {n : Nat} (h : n ≤ 65535) : (hex04 n).length = 4 := by
  rw [hex04]
  have hle : (hexDigits n).length ≤ 4 := by
    by_cases h0 : n = 0
    · subst h0; decide
    · rw [hexDigits, if_neg h0]
      simpa using hexDigitsRev_length_le (k := 4) (by omega)
  simp only [List.length_append, List.length_replicate, List.length_map]
  omega

theorem hex04_length_of_gt {n : Nat} (h : 65535 < n) : 4 < (hex04 n).length := by
  rw [hex04]
  have hgt : 4 < (hexDigits n).length := by
    rw [hexDigits, if_neg (by omega)]
    simpa using hexDigitsRev_length_gt (k := 4) (n := n) (by omega)
  simp only [List.length_append, List.length_replicate, List.length_map]
  omega

/-! Behaviour of the read primitives on an open connection. -/

theorem read_open (inp sent : List Nat) (n : Nat) :
    AdbConnection.read ⟨some ⟨inp, sent⟩⟩ n = .ok (inp.take n, ⟨some ⟨inp.drop n, sent⟩⟩) := by
  by_cases h : n = 0
  · subst h; simp [AdbConnection.read]
  · simp [AdbConnection.read, h, AdbConnection.connGet]

theorem frame_decode (bs rest sent : List Nat) (h : bs.length ≤ 65535) :
    AdbConnection.read_string_block ⟨some ⟨sendCommandFrame bs ++ rest, sent⟩⟩
      = .ok (bs, ⟨some ⟨rest, sent⟩⟩) := by
  have h4 : (hex04 bs.length).length = 4 := hex04_length_of_le h
  have hassoc : sendCommandFrame bs ++ rest = hex04 bs.length ++ (bs ++ rest) := by
    simp [sendCommandFrame]
  have htake : (hex04 bs.length ++ (bs ++ rest)).take 4 = hex04 bs.length := by
    rw [← h4, List.take_left]
  have hdrop : (hex04 bs.length ++ (bs ++ rest)).drop 4 = bs ++ rest := by
    rw [← h4, List.drop_left]
  have hem : (hex04 bs.length).isEmpty = false := by
    cases hx : hex04 bs.length with
    | nil => rw [hx] at h4; simp at h4
    | cons a l => simp
  rw [AdbConnection.read_string_block, hassoc, read_open, htake, hdrop]
  simp only [hem, Bool.false_eq_true, if_false, parseHex_hex04]
  rw [read_open, List.take_left, List.drop_left]

/-- C7: for every command whose UTF-8 byte encoding `bs` has at most 0xFFFF
bytes, reading a string block from a stream that starts with the frame
written by `send_command` yields back exactly `bs`, consumes exactly the
frame (4 prefix bytes plus `bs.length` payload bytes), and the 4-byte length
prefix parses to exactly `bs.length` (encode then decode is the identity). -/
theorem cmd_frame_roundtrip (bs rest sent : List Nat) (h : bs.length ≤ 65535) :
    AdbConnection.read_string_block ⟨some ⟨sendCommandFrame bs ++ rest, sent⟩⟩
        = .ok (bs, ⟨some ⟨rest, sent⟩⟩)
      ∧ parseHex ((sendCommandFrame bs).take 4) = some bs.length := by
  refine ⟨frame_decode bs rest sent h, ?_⟩
  have h4 : (hex04 bs.length).length = 4 := hex04_length_of_le h
  rw [sendCommandFrame, ← h4, List.take_left, parseHex_hex04]

theorem cmd_frame_roundtrip_witness :
    (strBytes "host:version").length ≤ 65535
      ∧ AdbConnection.read_string_block
            ⟨some ⟨sendCommandFrame (strBytes "host:version") ++ [10], []⟩⟩
          = .ok (strBytes "host:version", ⟨some ⟨[10], []⟩⟩) :=
  ⟨by decide, (cmd_frame_roundtrip (strBytes "host:version") [10] [] (by decide)).1⟩

/-- C8 counterexample: the claim says `send_command` fails for a command
longer than 0xFFFF bytes, but on a 65537-byte command it succeeds (the
`%04x` width is only a minimum). -/
theorem send_command_oversize_cex :
    (AdbConnection.send_command ⟨some ⟨[], []⟩⟩ (List.replicate 65537 0)).isOk = true := rfl

/-- C8 amended: `send_command` writes the minimum-width-4 lowercase hex
length prefix followed by the command bytes and never raises on an open
connection; for a command of at most 0xFFFF bytes the prefix is exactly 4
hex digits, while for a longer command the prefix is longer than 4 digits
(a malformed frame) instead of an error. -/
theorem send_command_spec (c : AdbConnection) (s : ConnSock) (bs : List Nat)
    (h : c.conn = some s) :
    c.send_command bs = .ok ⟨some ⟨s.input, s.sent ++ hex04 bs.length ++ bs⟩⟩
      ∧ (bs.length ≤ 65535 → (hex04 bs.length).length = 4)
      ∧ (65535 < bs.length → 4 < (hex04 bs.length).length) := by
  refine ⟨?_, fun h2 => hex04_length_of_le h2, fun h2 => hex04_length_of_gt h2⟩
  cases c with
  | mk co =>
    cases h
    simp [AdbConnection.send_command, AdbConnection.connGet, sendCommandFrame]

theorem send_command_spec_witness :
    AdbConnection.send_command ⟨some ⟨[], []⟩⟩ (strBytes "host:kill")
      = .ok ⟨some ⟨[], [] ++ hex04 (strBytes "host:kill").length ++ strBytes "host:kill"⟩⟩ :=
  (send_command_spec ⟨some ⟨[], []⟩⟩ ⟨[], []⟩ (strBytes "host:kill") rfl).1

/-- C1: `check_okay` reads exactly 4 bytes; on `OKAY` it returns normally
with exactly those 4 bytes consumed; on `FAIL` it raises an AdbError whose
message is the content of the length-prefixed string block that follows; on
any other 4-byte word it raises an AdbError; and it succeeds if and only if
the 4 bytes read are `OKAY`. -/
theorem check_okay_spec :
    (∀ inp sent, inp.take 4 = OKAY →
        AdbConnection.check_okay ⟨some ⟨inp, sent⟩⟩ = .ok ⟨some ⟨inp.drop 4, sent⟩⟩)
    ∧ (∀ block rest sent, block.length ≤ 65535 →
        AdbConnection.check_okay ⟨some ⟨FAIL ++ (sendCommandFrame block ++ rest), sent⟩⟩
            = .error (.adbBytes block)
          ∧ (PyErr.adbBytes block).isAdbError = true)
    ∧ (∀ data rest sent, data.length = 4 → data ≠ OKAY → data ≠ FAIL →
        AdbConnection.check_okay ⟨some ⟨data ++ rest, sent⟩⟩
            = .error (.adbUnknownData data)
          ∧ (PyErr.adbUnknownData data).isAdbError = true)
    ∧ (∀ inp sent,
        (AdbConnection.check_okay ⟨some ⟨inp, sent⟩⟩).isOk = true ↔ inp.take 4 = OKAY) := by
  refine ⟨?_, ?_, ?_, ?_⟩
  · intro inp sent h
    rw [AdbConnection.check_okay, read_open, h]
    simp [show OKAY ≠ FAIL by decide]
  · intro block rest sent h
    have htake : (FAIL ++ (sendCommandFrame block ++ rest)).take 4 = FAIL := by
      rw [show (4:Nat) = FAIL.length by decide, List.take_left]
    have hdrop : (FAIL ++ (sendCommandFrame block ++ rest)).drop 4 = sendCommandFrame block ++ rest := by
      rw [show (4:Nat) = FAIL.length by decide, List.drop_left]
    refine ⟨?_, rfl⟩
    rw [AdbConnection.check_okay, read_open, htake, hdrop]
    dsimp only
    rw [if_pos rfl, frame_decode block rest sent h]
  · intro data rest sent hlen hok hfail
    have htake : (data ++ rest).take 4 = data := by
      rw [← hlen, List.take_left]
    refine ⟨?_, rfl⟩
    rw [AdbConnection.check_okay, read_open, htake]
    dsimp only
    rw [if_neg hfail, if_neg hok]
  · intro inp sent
    rw [AdbConnection.check_okay, read_open]
    dsimp only
    by_cases h1 : inp.take 4 = FAIL
    · rw [if_pos h1, h1]
      have : ¬ (FAIL = OKAY) := by decide
      cases hrs : (⟨some ⟨inp.drop 4, sent⟩⟩ : AdbConnection).read_string_block with
      | ok v => simp [Except.isOk, Except.toBool, this]
      | error e => simp [Except.isOk, Except.toBool, this]
    · rw [if_neg h1]
      by_cases h2 : inp.take 4 = OKAY
      · rw [if_pos h2]; simp [Except.isOk, Except.toBool, h2]
      · rw [if_neg h2]; simp [Except.isOk, Except.toBool, h2]

theorem check_okay_spec_witness :
    (OKAY ++ [49, 50]).take 4 = OKAY
      ∧ AdbConnection.check_okay ⟨some ⟨OKAY ++ [49, 50], []⟩⟩
          = .ok ⟨some ⟨(OKAY ++ [49, 50]).drop 4, []⟩⟩
      ∧ AdbConnection.check_okay
            ⟨some ⟨FAIL ++ (sendCommandFrame (strBytes "device offline") ++ []), []⟩⟩
          = .error (.adbBytes (strBytes "device offline")) :=
  ⟨by decide, check_okay_spec.1 (OKAY ++ [49, 50]) [] (by decide),
    (check_okay_spec.2.1 (strBytes "device offline") [] [] (by decide)).1⟩

/-- C10 counterexample: on a closed connection, `read(0)` and
`read_exact(0)` return an empty byte string instead of raising (the
`_read_fully` loop body never runs, so `self.conn` is never evaluated),
contradicting the claim that every subsequent read raises. -/
theorem closed_read_zero_cex :
    AdbConnection.closed ⟨none⟩ = true
      ∧ AdbConnection.read ⟨none⟩ 0 = .ok ([], ⟨none⟩)
      ∧ AdbConnection.read_exact ⟨none⟩ 0 = .ok ([], ⟨none⟩) :=
  ⟨rfl, rfl, rfl⟩

/-- C10 amended: after `close` the connection is closed and a repeated
`close` is a no-op; on a closed connection `send`, `send_command`,
`read_string_block` and `check_okay` always raise
`AdbError("Connection is closed")`, `read n` and `read_exact n` raise it for
every `n > 0`, and `read 0` / `read_exact 0` return an empty byte string
with the state unchanged — so no operation ever acts on the closed socket. -/
theorem closed_connection_spec (c : AdbConnection) :
    (c.close).closed = true
    ∧ (c.close).close = c.close
    ∧ (c.closed = true →
        (∀ data, c.send data = .error (.adbMsg "Connection is closed"))
        ∧ (∀ n, 0 < n → c.read n = .error (.adbMsg "Connection is closed"))
        ∧ (c.read 0 = .ok ([], c))
        ∧ (∀ n, 0 < n → c.read_exact n = .error (.adbMsg "Connection is closed"))
        ∧ (c.read_exact 0 = .ok ([], c))
        ∧ (∀ bs, c.send_command bs = .error (.adbMsg "Connection is closed"))
        ∧ (c.read_string_block = .error (.adbMsg "Connection is closed"))
        ∧ (c.check_okay = .error (.adbMsg "Connection is closed"))) := by
  cases c with
  | mk co =>
    cases co with
    | none =>
      refine ⟨rfl, rfl, fun _ => ?_⟩
      have hread : ∀ n, 0 < n →
          AdbConnection.read ⟨none⟩ n = .error (.adbMsg "Connection is closed") := by
        intro n hn
        rw [AdbConnection.read, if_neg (by omega)]
        rfl
      refine ⟨fun data => rfl, hread, rfl, fun n hn => ?_, rfl, fun bs => rfl, rfl, rfl⟩
      rw [AdbConnection.read_exact, hread n hn]
    | some s =>
      exact ⟨rfl, rfl, fun h => by simp [AdbConnection.closed] at h⟩

theorem closed_connection_spec_witness :
    AdbConnection.send ⟨none⟩ [79] = .error (.adbMsg "Connection is closed")
      ∧ AdbConnection.read ⟨none⟩ 4 = .error (.adbMsg "Connection is closed")
      ∧ AdbConnection.check_okay ⟨none⟩ = .error (.adbMsg "Connection is closed") := by
  have h := (closed_connection_spec ⟨none⟩).2.2 rfl
  exact ⟨h.1 [79], h.2.1 4 (by omega), h.2.2.2.2.2.2.2⟩

/-! Device tracker (`BaseClient.track_devices` and `_diff_devices` in
`_adb.py`).  `DeviceEvent` is a frozen dataclass, so equality and hashing
compare all three fields; snapshot entries built by `_output2devices` carry
`present = None`. -/

/-- `DeviceEvent` from `_proto.py`. -/
structure DeviceEvent where
  present : Option Bool
  serial : String
  status : String
deriving DecidableEq, Repr

/-- `BaseClient._diff_devices`: `set(orig).difference(curr)` yields the
distinct entries of `orig` that do not occur (as whole dataclass values) in
`curr`, each emitted as an absent event; then symmetrically the distinct
entries of `curr` not occurring in `orig`, emitted as present events. -/
def diff_devices (orig curr : List DeviceEvent) : List DeviceEvent :=
  ((orig.dedup).filter (fun d => decide (d ∉ curr))).map
      (fun d => ⟨some false, d.serial, "absent"⟩)
    ++ ((curr.dedup).filter (fun d => decide (d ∉ orig))).map
      (fun d => ⟨some true, d.serial, d.status⟩)

/-- The event stream of `BaseClient.track_devices` over a finite list of
parsed snapshots: starting from an empty previous snapshot, each new
snapshot is diffed against the previous one and the diffs concatenated. -/
def track_events (snapshots : List (List DeviceEvent)) : List DeviceEvent :=
  (snapshots.foldl
    (fun (acc : List DeviceEvent × List DeviceEvent) curr =>
      (acc.1 ++ diff_devices acc.2 curr, curr))
    ([], [])).1

/-- C2 counterexample: for consecutive snapshots `[(S1, device)]` then
`[(S1, offline)]` the claim requires exactly one event, `(present true, S1,
offline)`, and no absent event; the code diffs whole entries and therefore
also emits `(present false, S1, absent)` even though serial S1 is still
present.  The claim's snapshot sequence thus produces four events, not
three. -/
theorem diff_devices_status_change_cex :
    diff_devices [⟨none, "S1", "device"⟩] [⟨none, "S1", "offline"⟩]
        = [⟨some false, "S1", "absent"⟩, ⟨some true, "S1", "offline"⟩]
      ∧ track_events [[⟨none, "S1", "device"⟩], [⟨none, "S1", "offline"⟩], []]
        = [⟨some true, "S1", "device"⟩, ⟨some false, "S1", "absent"⟩,
           ⟨some true, "S1", "offline"⟩, ⟨some false, "S1", "absent"⟩] := by
  constructor <;> decide

/-- C2 amended: the diff compares whole snapshot entries, not serials: an
event is emitted exactly for each distinct old entry that does not occur
identically in the new snapshot (as `{present false, status absent}`) and
for each distinct new entry that does not occur identically in the old
snapshot (as `{present true, status new}`); an entry whose status changed
therefore emits both an absent and a present event, an unchanged entry
emits nothing, and the sequence `[] → [(S1,device)] → [(S1,offline)] → []`
emits the four events listed in the counterexample. -/
theorem diff_devices_spec (orig curr : List DeviceEvent) (e : DeviceEvent) :
    e ∈ diff_devices orig curr ↔
      ((∃ d, d ∈ orig ∧ d ∉ curr ∧ e = ⟨some false, d.serial, "absent"⟩)
        ∨ (∃ d, d ∈ curr ∧ d ∉ orig ∧ e = ⟨some true, d.serial, d.status⟩)) := by
  simp only [diff_devices, List.mem_append, List.mem_map, List.mem_filter,
    List.mem_dedup, decide_eq_true_eq]
  constructor
  · rintro (⟨d, ⟨hd, hnc⟩, he⟩ | ⟨d, ⟨hd, hno⟩, he⟩)
    · exact Or.inl ⟨d, hd, hnc, he.symm⟩
    · exact Or.inr ⟨d, hd, hno, he.symm⟩
  · rintro (⟨d, hd, hnc, he⟩ | ⟨d, hd, hno, he⟩)
    · exact Or.inl ⟨d, ⟨hd, hnc⟩, he.symm⟩
    · exact Or.inr ⟨d, ⟨hd, hno⟩, he.symm⟩

/-! Device construction (`BaseDevice.__init__` in `_device_base.py`). -/

/-- Python falsiness of an optional string argument: `None` or `""`. -/
def strFalsy : Option String → Bool
  | none => true
  | some s => s.isEmpty

/-- Python falsiness of an optional integer argument: `None` or `0`. -/
def natFalsy : Option Nat → Bool
  | none => true
  | some n => n == 0

/-- The identifying state of `BaseDevice`. -/
structure BaseDevice where
  serial : Option String
  transport_id : Option Nat
deriving DecidableEq, Repr

/-- `BaseDevice.__init__`: stores both identifiers and raises
`AdbError("serial, transport_id must set atleast one")` exactly when
neither is truthy (`if not serial and not transport_id`). -/
def baseDeviceInit (serial : Option String) (transport_id : Option Nat) :
    Except PyErr BaseDevice :=
  if strFalsy serial && natFalsy transport_id then
    .error (.adbMsg "serial, transport_id must set atleast one")
  else .ok ⟨serial, transport_id⟩

/-- C9 counterexample: the claim says construction with both `serial` and
`transport_id` set is rejected, but the code accepts it and keeps both
identifiers. -/
theorem base_device_both_set_cex :
    baseDeviceInit (some "emulator-5554") (some 5) = .ok ⟨some "emulator-5554", some 5⟩ := by
  decide

/-- C9 amended: construction fails exactly when neither identifier is set
(serial absent or empty, and transport id absent or zero); in every other
case — exactly one set, or both set — it succeeds and stores the arguments
unchanged. -/
theorem base_device_init_spec (serial : Option String) (transport_id : Option Nat) :
    (baseDeviceInit serial transport_id
        = .error (.adbMsg "serial, transport_id must set atleast one")
      ↔ (strFalsy serial = true ∧ natFalsy transport_id = true))
    ∧ (¬ (strFalsy serial = true ∧ natFalsy transport_id = true) →
        baseDeviceInit serial transport_id = .ok ⟨serial, transport_id⟩) := by
  by_cases hs : strFalsy serial = true
  · by_cases ht : natFalsy transport_id = true
    · simp [baseDeviceInit, hs, ht]
    · simp [baseDeviceInit, hs, ht]
  · simp [baseDeviceInit, hs]

theorem base_device_init_spec_witness :
    baseDeviceInit (some "emulator-5554") none = .ok ⟨some "emulator-5554", none⟩ :=
  (base_device_init_spec (some "emulator-5554") none).2 (by decide)

/-! Tabular response parsing (`BaseClient.forward_list` in `_adb.py` and
`BaseDevice.reverse_list` in `_device_base.py`). -/

/-- Python whitespace for `str.split()` / `int()` stripping. -/
def isSpaceB (b : Nat) : Bool :=
  b == 32 || b == 9 || b == 10 || b == 13 || b == 11 || b == 12

/-- Worker for `splitlines`: accumulates the current line. -/
def splitlinesAux : List Nat → List Nat → List (List Nat)
  | [], cur => if cur.isEmpty then [] else [cur]
  | b :: rest, cur =>
    if b == 10 then cur :: splitlinesAux rest []
    else splitlinesAux rest (cur ++ [b])

/-- Python `str.splitlines()` for newline-terminated text: splits on `\n`
and produces no trailing empty line. -/
def splitlinesB (bs : List Nat) : List (List Nat) := splitlinesAux bs []

/-- Worker for `split()`: accumulates the current word. -/
def pysplitAux : List Nat → List Nat → List (List Nat)
  | [], cur => if cur.isEmpty then [] else [cur]
  | b :: rest, cur =>
    if isSpaceB b then
      if cur.isEmpty then pysplitAux rest [] else cur :: pysplitAux rest []
    else pysplitAux rest (cur ++ [b])

/-- Python `str.split()` with no argument: whitespace-separated words, with
no empty fields. -/
def pysplitB (bs : List Nat) : List (List Nat) := pysplitAux bs []

/-- `ForwardItem` from `_proto.py` (field `local` renamed: Lean keyword). -/
structure ForwardItem where
  serial : List Nat
  local_addr : List Nat
  remote : List Nat
deriving DecidableEq, Repr

/-- `ReverseItem` from `_proto.py` (field `local` renamed: Lean keyword). -/
structure ReverseItem where
  remote : List Nat
  local_addr : List Nat
deriving DecidableEq, Repr

/-- The `if serial and parts[0] != serial: continue` filter of
`BaseClient.forward_list`. -/
def serialMismatch : Option (List Nat) → List Nat → Bool
  | none, _ => false
  | some sn, a => if sn.isEmpty then false else a != sn

/-- One loop iteration of `BaseClient.forward_list`: lines that do not split
into exactly 3 whitespace-separated fields are skipped. -/
def forwardStep (serial : Option (List Nat)) (items : List ForwardItem)
    (line : List Nat) : List ForwardItem :=
  match pysplitB line with
  | [a, b, c] => if serialMismatch serial a then items else items ++ [⟨a, b, c⟩]
  | _ => items

/-- The parsing loop of `BaseClient.forward_list` applied to the response
body returned by `read_string_block`. -/
def forward_list (serial : Option (List Nat)) (content : List Nat) : List ForwardItem :=
  (splitlinesB content).foldl (forwardStep serial) []

/-- The parsing loop of `BaseDevice.reverse_list` applied to the response
body.  In the source the `items.append(ReverseItem(*parts[1:]))` line sits
OUTSIDE the `for` loop (at the loop's indentation level), so only the split
of the LAST line is consulted: with no lines at all the loop variable
`parts` was never bound (UnboundLocalError); with a last line of any field
count other than 3, `ReverseItem(*parts[1:])` gets the wrong number of
arguments (TypeError); otherwise the single item built from the last line
is returned. -/
def reverse_list (content : List Nat) : Except PyErr (List ReverseItem) :=
  match (splitlinesB content).getLast? with
  | none => .error .unboundLocal
  | some line =>
    match pysplitB line with
    | [_, b, c] => .ok [⟨b, c⟩]
    | _ => .error .typeError

theorem forward_list_foldl_length (lines : List (List Nat)) :
    ∀ acc : List ForwardItem,
      (lines.foldl (forwardStep none) acc).length
        = acc.length + (lines.filter (fun l => (pysplitB l).length == 3)).length := by
  induction lines with
  | nil => intro acc; simp
  | cons l tl ih =>
    intro acc
    rw [List.foldl_cons, ih]
    rcases h : pysplitB l with _ | ⟨a, _ | ⟨b, _ | ⟨c, _ | ⟨d, t⟩⟩⟩⟩ <;>
      simp [forwardStep, h, serialMismatch, List.filter_cons] <;> omega

/-- C3: the `forward_list` loop returns one item per line with exactly 3
whitespace-separated fields, skips other lines, and yields `[]` on an empty
body; but the `reverse_list` loop appends outside the `for` statement, so an
empty (or fully consumed) body raises UnboundLocalError, a malformed last
line raises TypeError, and only the last well-formed line produces an item —
the repository's own tests (`test_reverse_list_empty_output`,
`test_reverse_list_invalid_lines`) expect `[]` in the first two cases. -/
theorem forward_reverse_list_eval :
    (∀ content, (forward_list none content).length
        = ((splitlinesB content).filter (fun l => (pysplitB l).length == 3)).length)
    ∧ forward_list none (strBytes "") = []
    ∧ forward_list none (strBytes "one two\nthree four five six\n") = []
    ∧ forward_list none (strBytes "S1 tcp:1 tcp:2\nbad\nS2 tcp:3 tcp:4\n")
        = [⟨strBytes "S1", strBytes "tcp:1", strBytes "tcp:2"⟩,
           ⟨strBytes "S2", strBytes "tcp:3", strBytes "tcp:4"⟩]
    ∧ reverse_list (strBytes "") = .error .unboundLocal
    ∧ reverse_list (strBytes "invalid line\nanother\n") = .error .typeError
    ∧ reverse_list (strBytes "r1 tcp:1 tcp:2\nr2 tcp:3 tcp:4\n")
        = .ok [⟨strBytes "tcp:3", strBytes "tcp:4"⟩] := by
  refine ⟨fun content => ?_, ?_, ?_, ?_, ?_, ?_, ?_⟩
  · rw [forward_list, forward_list_foldl_length]
    simp
  all_goals decide

/-! Shell protocol v1 exit-code extraction (`BaseDevice._shell_v1` in
`_device_base.py`). -/

/-- The sentinel token `MAGIC = "X4EXIT:"` of `_shell_v1`. -/
def MAGIC : List Nat := strBytes "X4EXIT:"

/-- Whether `needle` occurs in `hay` starting at index `i`. -/
def matchesAt (hay needle : List Nat) (i : Nat) : Bool :=
  decide ((hay.drop i).take needle.length = needle)

/-- Scan from index `bound - 1` down to 0 for the first (hence greatest)
occurrence. -/
def rfindAux (hay needle : List Nat) : Nat → Option Nat
  | 0 => none
  | i + 1 => if matchesAt hay needle i then some i else rfindAux hay needle i

/-- Python `bytes.rfind`: index of the last occurrence of `needle`, `none`
for Python's `-1`. -/
def rfindSub (hay needle : List Nat) : Option Nat :=
  rfindAux hay needle (hay.length + 1)

/-- One step of the decimal accumulator fold of Python `int()`. -/
def decStep (acc : Option Nat) (b : Nat) : Option Nat :=
  acc.bind fun a => if 48 ≤ b ∧ b ≤ 57 then some (a * 10 + (b - 48)) else none

/-- Decimal digit-string value; `none` on empty or non-digit input. -/
def parseDecDigits (bs : List Nat) : Option Nat :=
  if bs.isEmpty then none else bs.foldl decStep (some 0)

/-- Strips trailing Python whitespace. -/
def stripWSRight (bs : List Nat) : List Nat :=
  (bs.reverse.dropWhile isSpaceB).reverse

/-- Strips surrounding Python whitespace. -/
def stripWS (bs : List Nat) : List Nat :=
  stripWSRight (bs.dropWhile isSpaceB)

/-- Python `int(bytes)`: optional surrounding whitespace, optional sign,
then decimal digits; `none` models `ValueError`. -/
def parseIntBytes (bs : List Nat) : Option Int :=
  match stripWS bs with
  | 45 :: rest => (parseDecDigits rest).map (fun n => -(n : Int))
  | 43 :: rest => (parseDecDigits rest).map (fun n => (n : Int))
  | t => (parseDecDigits t).map (fun n => (n : Int))

/-- The exit-code extraction of `_shell_v1` on the captured output, with the
sentinel as a parameter: split at the LAST occurrence of the sentinel; the
bytes before it are the output, the integer after it is the return code;
raise `AdbError("shell output invalid", ...)` when the sentinel is absent. -/
def shell_v1_parse (magic output : List Nat) : Except PyErr (List Nat × Int) :=
  match rfindSub output magic with
  | none => .error .adbShellOutputInvalid
  | some i =>
    match parseIntBytes (output.drop (i + magic.length)) with
    | none => .error .valueError
    | some rc => .ok (output.take i, rc)

/-- `_shell_v1` instantiates the parser at the fixed sentinel `X4EXIT:`. -/
def shell_v1_exit_parse (output : List Nat) : Except PyErr (List Nat × Int) :=
  shell_v1_parse MAGIC output

theorem rfindAux_eq_some (hay needle : List Nat) (b i : Nat) (hib : i < b)
    (hmatch : matchesAt hay needle i = true)
    (hlast : ∀ j, i < j → j < b → matchesAt hay needle j = false) :
    rfindAux hay needle b = some i := by
  induction b with
  | zero => omega
  | succ b ih =>
    rw [rfindAux]
    by_cases hb : i = b
    · subst hb; rw [if_pos hmatch]
    · have hfalse : matchesAt hay needle b = false := hlast b (by omega) (by omega)
      rw [hfalse]
      simp only [Bool.false_eq_true, if_false]
      exact ih (by omega) (fun j hj hjb => hlast j hj (by omega))

/-- C4: with the sentinel present, the shell-v1 parser splits the captured
output at the last occurrence of the sentinel, returning the bytes before it
and the integer after it (in particular `"helloMAGIC:0"` with sentinel
`"MAGIC:"` gives output `"hello"` and return code 0); with the sentinel
absent, it raises an AdbError instead of returning a code. -/
theorem shell_v1_sentinel_spec :
    (∀ pre suffix magic rc, magic ≠ [] →
        (∀ j ∈ List.range ((pre ++ magic ++ suffix).length + 1),
            pre.length < j → matchesAt (pre ++ magic ++ suffix) magic j = false) →
        parseIntBytes suffix = some rc →
        shell_v1_parse magic (pre ++ magic ++ suffix) = .ok (pre, rc))
    ∧ (∀ output magic, rfindSub output magic = none →
        shell_v1_parse magic output = .error .adbShellOutputInvalid
          ∧ PyErr.adbShellOutputInvalid.isAdbError = true) := by
  constructor
  · intro pre suffix magic rc hmag hnone hparse
    have hmatch : matchesAt (pre ++ magic ++ suffix) magic pre.length = true := by
      rw [matchesAt, List.append_assoc, List.drop_left, List.take_left]
      simp
    have hfind : rfindSub (pre ++ magic ++ suffix) magic = some pre.length := by
      refine rfindAux_eq_some _ _ _ _ ?_ hmatch ?_
      · have : magic.length ≠ 0 := by
          cases magic with
          | nil => exact absurd rfl hmag
          | cons a l => simp
        simp only [List.length_append]
        omega
      · intro j hj hjb
        exact hnone j (List.mem_range.mpr hjb) hj
    have hdrop : (pre ++ magic ++ suffix).drop (pre.length + magic.length) = suffix := by
      rw [show pre.length + magic.length = (pre ++ magic).length by simp, List.drop_left]
    have htake : (pre ++ magic ++ suffix).take pre.length = pre := by
      rw [List.append_assoc, List.take_left]
    rw [shell_v1_parse, hfind]
    dsimp only
    rw [hdrop, hparse, htake]
  · intro output magic h
    refine ⟨?_, rfl⟩
    rw [shell_v1_parse, h]

theorem shell_v1_sentinel_spec_witness :
    shell_v1_parse (strBytes "MAGIC:") (strBytes "hello" ++ strBytes "MAGIC:" ++ strBytes "0")
        = .ok (strBytes "hello", 0)
      ∧ shell_v1_parse MAGIC (strBytes "no sentinel here")
        = .error .adbShellOutputInvalid := by
  constructor
  · exact shell_v1_sentinel_spec.1 (strBytes "hello") (strBytes "0") (strBytes "MAGIC:") 0
      (by decide) (by decide) (by decide)
  · exact (shell_v1_sentinel_spec.2 (strBytes "no sentinel here") MAGIC (by decide)).1

/-! Shell protocol v2 frame reading (`BaseDevice._shell_v2` in
`_device_base.py`). -/

/-- `int.from_bytes(header[1:5], "little")`. -/
def u32le (b1 b2 b3 b4 : Nat) : Nat :=
  b1 + b2 * 256 + b3 * 65536 + b4 * 16777216

/-- The `while True` frame loop of `_shell_v2`, reading frames
`{streamId: u8}{length: u32-LE}{payload}` and accumulating the stdout,
stderr and combined-output buffers until a stream-id-3 (exit) frame.  The
explicit fuel only bounds the iteration count (each iteration consumes at
least 5 input bytes, so any fuel above the input length is enough); it keeps
the recursion structural. -/
def shell_v2_go : Nat → List Nat → List Nat → List Nat → List Nat →
    Except PyErr (List Nat × List Nat × List Nat × Nat)
  | 0, _, _, _, _ => .error (.eofShort 5 0)
  | fuel + 1, b0 :: b1 :: b2 :: b3 :: b4 :: rest, so, se, out =>
    let len := u32le b1 b2 b3 b4
    if len = 0 then shell_v2_go fuel rest so se out
    else if rest.length < len then .error (.eofShort len rest.length)
    else
      let data := rest.take len
      if b0 = 1 then shell_v2_go fuel (rest.drop len) (so ++ data) se (out ++ data)
      else if b0 = 2 then shell_v2_go fuel (rest.drop len) so (se ++ data) (out ++ data)
      else if b0 = 3 then .ok (so, se, out, data.headD 0)
      else shell_v2_go fuel (rest.drop len) so se out
  | _ + 1, other, _, _, _ => .error (.eofShort 5 other.length)

/-- `_shell_v2` frame reading on a whole input stream: the result is
`(stdout, stderr, combined output, exit code)`. -/
def shell_v2_parse (input : List Nat) : Except PyErr (List Nat × List Nat × List Nat × Nat) :=
  shell_v2_go (input.length + 1) input [] [] []

/-- The bytes of one v2 frame with stream id `i` and the given payload. -/
def encFrame (i : Nat) (payload : List Nat) : List Nat :=
  i % 256 :: payload.length % 256 :: payload.length / 256 % 256 ::
    payload.length / 65536 % 256 :: payload.length / 16777216 % 256 :: payload

/-- Concatenated encoding of a frame list. -/
def encFrames (fs : List (Nat × List Nat)) : List Nat :=
  fs.foldr (fun f acc => encFrame f.1 f.2 ++ acc) []

/-- Concatenated payloads of the frames with stream id `i`, in order. -/
def outIs (i : Nat) (fs : List (Nat × List Nat)) : List Nat :=
  (fs.filter (fun f => f.1 == i)).foldr (fun f acc => f.2 ++ acc) []

/-- Concatenated payloads of the stdout and stderr frames, in arrival
order (the combined-output view). -/
def outIs12 (fs : List (Nat × List Nat)) : List Nat :=
  (fs.filter (fun f => f.1 == 1 || f.1 == 2)).foldr (fun f acc => f.2 ++ acc) []

theorem u32le_enc (n : Nat) (h : n < 4294967296) :
    u32le (n % 256) (n / 256 % 256) (n / 65536 % 256) (n / 16777216 % 256) = n := by
  rw [u32le]; omega

theorem shell_v2_go_step (fuel i : Nat) (p rest so se out : List Nat)
    (hi : i < 256) (h3 : i ≠ 3) (hp : p.length < 4294967296) :
    shell_v2_go (fuel + 1) (encFrame i p ++ rest) so se out
      = shell_v2_go fuel rest
          (so ++ (if i = 1 then p else []))
          (se ++ (if i = 2 then p else []))
          (out ++ (if i = 1 ∨ i = 2 then p else [])) := by
  rw [encFrame]
  simp only [List.cons_append]
  rw [shell_v2_go]
  rw [u32le_enc p.length hp, Nat.mod_eq_of_lt hi]
  by_cases h0 : p.length = 0
  · have hp0 : p = [] := List.length_eq_zero.mp h0
    subst hp0
    simp
  · rw [if_neg h0]
    have hlt : ¬ (p ++ rest).length < p.length := by
      simp only [List.length_append]; omega
    rw [if_neg hlt, List.take_left, List.drop_left]
    by_cases h1 : i = 1
    · subst h1; simp
    · by_cases h2 : i = 2
      · subst h2; simp
      · rw [if_neg h1, if_neg h2, if_neg h3]
        simp [h1, h2]

theorem shell_v2_go_exit (fuel c : Nat) (junk so se out : List Nat) (hc : c < 256) :
    shell_v2_go (fuel + 1) (encFrame 3 [c] ++ junk) so se out = .ok (so, se, out, c) := by
  rw [encFrame]
  norm_num
  rw [shell_v2_go]
  simp [u32le]

theorem shell_v2_go_frames (fs : List (Nat × List Nat)) :
    ∀ (c : Nat) (junk so se out : List Nat) (fuel : Nat),
      (∀ f ∈ fs, f.1 < 256 ∧ f.1 ≠ 3 ∧ f.2.length < 4294967296) → c < 256 →
      (encFrames fs ++ encFrame 3 [c] ++ junk).length < fuel →
      shell_v2_go fuel (encFrames fs ++ encFrame 3 [c] ++ junk) so se out
        = .ok (so ++ outIs 1 fs, se ++ outIs 2 fs, out ++ outIs12 fs, c) := by
  induction fs with
  | nil =>
    intro c junk so se out fuel hf hc hlen
    match fuel, hlen with
    | fuel + 1, _ =>
      simp only [encFrames, List.foldr_nil, List.nil_append]
      rw [shell_v2_go_exit fuel c junk so se out hc]
      simp [outIs, outIs12]
  | cons hd tl ih =>
    intro c junk so se out fuel hf hc hlen
    obtain ⟨i, p⟩ := hd
    have hhd := hf (i, p) (by simp)
    have henc : encFrames ((i, p) :: tl) = encFrame i p ++ encFrames tl := by
      simp [encFrames]
    rw [henc] at hlen ⊢
    match fuel, hlen with
    | fuel + 1, hlen =>
      rw [List.append_assoc, List.append_assoc]
      rw [shell_v2_go_step fuel i p _ so se out hhd.1 hhd.2.1 hhd.2.2]
      rw [← List.append_assoc (encFrames tl)]
      rw [ih c junk _ _ _ fuel (fun f hfm => hf f (by simp [hfm])) hc ?hfuel]
      case hfuel =>
        have : (encFrame i p).length = 5 + p.length := by
          simp only [encFrame, List.length_cons]
          omega
        simp only [List.length_append] at hlen ⊢
        omega
      have houts : outIs 1 ((i, p) :: tl) = (if i = 1 then p else []) ++ outIs 1 tl := by
        by_cases h1 : i = 1 <;> simp [outIs, List.filter_cons, h1]
      have houte : outIs 2 ((i, p) :: tl) = (if i = 2 then p else []) ++ outIs 2 tl := by
        by_cases h2 : i = 2 <;> simp [outIs, List.filter_cons, h2]
      have hout12 : outIs12 ((i, p) :: tl)
          = (if i = 1 ∨ i = 2 then p else []) ++ outIs12 tl := by
        by_cases h1 : i = 1
        · subst h1; simp [outIs12, List.filter_cons]
        · by_cases h2 : i = 2
          · subst h2; simp [outIs12, List.filter_cons]
          · simp [outIs12, List.filter_cons, h1, h2]
      rw [houts, houte, hout12]
      simp [List.append_assoc]

/-- C5 counterexample: a frame with stream id 9 (neither stdout, stderr nor
exit) is silently skipped by the loop — its payload is consumed and the read
continues — instead of raising the protocol error the claim requires. -/
theorem shell_v2_unknown_id_cex :
    shell_v2_parse [9, 2, 0, 0, 0, 55, 56, 3, 1, 0, 0, 0, 7] = .ok ([], [], [], 7) := by
  decide

/-- C5 amended: frames with stream id 1 are appended to stdout, id 2 to
stderr, and an id-3 frame terminates the loop with the first payload byte as
the return code; a frame with any other stream id is silently skipped (its
payload is consumed and contributes to no buffer) rather than raising a
protocol error. -/
theorem shell_v2_frames_spec (fs : List (Nat × List Nat)) (c : Nat) (junk : List Nat)
    (hf : ∀ f ∈ fs, f.1 < 256 ∧ f.1 ≠ 3 ∧ f.2.length < 4294967296) (hc : c < 256) :
    shell_v2_parse (encFrames fs ++ encFrame 3 [c] ++ junk)
      = .ok (outIs 1 fs, outIs 2 fs, outIs12 fs, c) := by
  have h := shell_v2_go_frames fs c junk [] [] []
    ((encFrames fs ++ encFrame 3 [c] ++ junk).length + 1) hf hc (by omega)
  simpa [shell_v2_parse] using h

theorem shell_v2_frames_spec_witness :
    shell_v2_parse (encFrames [(1, strBytes "out"), (2, strBytes "err")]
        ++ encFrame 3 [1] ++ [])
      = .ok (strBytes "out", strBytes "err", strBytes "out" ++ strBytes "err", 1) := by
  rw [shell_v2_frames_spec [(1, strBytes "out"), (2, strBytes "err")] 1 []
    (by decide) (by decide)]
  decide

/-! Sync push destination dispatch (`Sync.push` in `sync.py`). -/

/-- `stat.S_IFDIR` (0o040000). -/
def S_IFDIR : Nat := 16384

/-- `stat.S_IFREG` (0o100000). -/
def S_IFREG : Nat := 32768

/-- `append_path` from `_utils.py` (string case); `base` is assumed
nonempty since Python indexes `base[-1]`. -/
def append_path (base add : String) : String :=
  if base.data.getLast? = some '/' then base ++ add else base ++ "/" ++ add

/-- Worker splitting a character list at every slash. -/
def pathComponentsAux : List Char → List Char → List (List Char)
  | [], cur => [cur]
  | ch :: rest, cur =>
    if ch = '/' then cur :: pathComponentsAux rest []
    else pathComponentsAux rest (cur ++ [ch])

/-- The basename `pathlib.Path(src).name` for a POSIX path: the last
component, ignoring empty components and single dots. -/
def pathName (s : String) : String :=
  ⟨(((pathComponentsAux s.data []).filter
      (fun comp => !comp.isEmpty && comp != ['.'])).getLast?).getD []⟩

/-- The source argument of `Sync.push`: a filesystem path (`pathlib.Path`
or `str`) or a readable stream object (bytes/IO). -/
inductive PushSrc where
  | path (p : String)
  | stream
deriving DecidableEq, Repr

/-- The destination-dispatch step of `Sync.push` (lines 96-104 of
`sync.py`), given the `mode` field of the preceding STAT response: when the
directory bit is set, a stream source raises AdbSyncError and a path source
gets its basename appended to `dst`; otherwise `dst` is passed through
unchanged to `_push_file`. -/
def push_dest (statMode : Nat) (src : PushSrc) (dst : String) : Except PyErr String :=
  if statMode &&& S_IFDIR ≠ 0 then
    match src with
    | .stream => .error (.adbSyncMsg "src should be a file path when dst is a directory")
    | .path p => .ok (append_path dst (pathName p))
  else .ok dst

/-- C6: when the preceding STAT of the destination reports the directory
mode bit, the basename of the source path is appended to the destination
before the SEND request, and pushing a stream object at a directory
destination raises a caller error (AdbSyncError); when the directory bit is
absent the destination is used unchanged.  Concretely, a directory mode
(0o40755) sends `/data/local/tmp/app.apk` for source `/tmp/files/app.apk`,
while a regular-file mode (0o100644) leaves the destination untouched. -/
theorem push_dir_dispatch_spec (mode : Nat) (src : PushSrc) (dst : String) :
    (mode &&& S_IFDIR ≠ 0 →
        push_dest mode .stream dst
            = .error (.adbSyncMsg "src should be a file path when dst is a directory")
          ∧ (∀ p, push_dest mode (.path p) dst = .ok (append_path dst (pathName p))))
    ∧ (mode &&& S_IFDIR = 0 → push_dest mode src dst = .ok dst)
    ∧ push_dest 16877 (.path "/tmp/files/app.apk") "/data/local/tmp"
        = .ok "/data/local/tmp/app.apk"
    ∧ push_dest 33188 (.path "/tmp/files/app.apk") "/data/local/tmp/app.apk"
        = .ok "/data/local/tmp/app.apk" := by
  refine ⟨fun h => ⟨?_, fun p => ?_⟩, fun h => ?_, ?_, ?_⟩
  · simp [push_dest, h]
  · simp [push_dest, h]
  · simp [push_dest, h]
  · decide
  · decide

theorem push_dir_dispatch_spec_witness :
    (16877 &&& S_IFDIR ≠ 0)
      ∧ push_dest 16877 PushSrc.stream "/data/local/tmp"
          = .error (.adbSyncMsg "src should be a file path when dst is a directory")
      ∧ (33188 &&& S_IFDIR = 0)
      ∧ push_dest 33188 (.path "/x/y.txt") "/data/app.bin" = .ok "/data/app.bin" := by
  refine ⟨by decide, ?_, by decide, ?_⟩
  · exact ((push_dir_dispatch_spec 16877 PushSrc.stream "/data/local/tmp").1 (by decide)).1
  · exact (push_dir_dispatch_spec 33188 (.path "/x/y.txt") "/data/app.bin").2.1 (by decide)

end Adbutils
